import Mathlib

/-!
Verification development for the video-translate signaling/transcription relay
server (`server.js`).  The server state (five JS `Map`s, the renewal timers and
the set of connected sockets) is embedded shallowly, and every socket event
handler is translated into a step function on that state.  Transcript events
from the speech provider are handled by the `data` closure, translated here as
`handleTranscript`, a pure function of the values the closure captured at
session-creation time (the JS code never mutates a stored language record in
place — each `userLanguages.set` installs a fresh object — so capture of the
object reference is observationally capture of its value).
-/

namespace VTS

/-- JS values that flow through the language-settings records: strings,
arrays of strings, and `undefined` (also the result of reading an absent
object key). -/
inductive JsVal : Type
  | undef : JsVal
  | str : String → JsVal
  | arr : List String → JsVal
deriving DecidableEq

/-- A JS object with string keys, as stored in `userLanguages`. -/
abbrev JsObj := List (String × JsVal)

/-- Association-list embedding of `Map.get` (first matching key). -/
def mget {α : Type} (m : List (String × α)) (k : String) : Option α :=
  match m with
  | [] => none
  | (k2, v) :: rest => if k2 = k then some v else mget rest k

/-- Embedding of `Map.delete`. -/
def mdel {α : Type} (m : List (String × α)) (k : String) : List (String × α) :=
  match m with
  | [] => []
  | (k2, v) :: rest => if k2 = k then mdel rest k else (k2, v) :: mdel rest k

/-- Embedding of `Map.set`.  JS `Map.set` updates in place preserving insertion
order; no code path in the server iterates these maps, so this
order-normalising variant is observationally equivalent through
`get`/`has`/`delete`. -/
def mset {α : Type} (m : List (String × α)) (k : String) (v : α) : List (String × α) :=
  (k, v) :: mdel m k

/-- Embedding of `Map.has`. -/
def mhas {α : Type} (m : List (String × α)) (k : String) : Bool :=
  (mget m k).isSome

/-- Number of entries of the map under a given key. -/
def countKey {α : Type} (m : List (String × α)) (k : String) : Nat :=
  match m with
  | [] => 0
  | (k2, _) :: rest => (if k2 = k then 1 else 0) + countKey rest k

/-- Reading a property of a JS object: `undefined` when the key is absent. -/
def objGet (o : JsObj) (k : String) : JsVal :=
  (mget o k).getD JsVal.undef

/-- JS truthiness of the values that appear in a language record: `undefined`
and the empty string are falsy, every other string and every array is truthy. -/
def jsTruthy : JsVal → Bool
  | JsVal.undef => false
  | JsVal.str s => !(s = "")
  | JsVal.arr _ => true

/-- `JSON.stringify` restricted to the values compared by the
`updateLanguageSettings` handler; `JSON.stringify(undefined)` is the value
`undefined`, embedded as `none`.  (Internal quote escaping is elided: the
comparison below only needs stringification to separate `undefined` from
arrays and to compare arrays structurally.) -/
def jsonStringify : JsVal → Option String
  | JsVal.undef => none
  | JsVal.str s => some ("\"" ++ s ++ "\"")
  | JsVal.arr a => some ("[" ++ String.intercalate "," (a.map (fun s => "\"" ++ s ++ "\"")) ++ "]")

/-- `'he-IL'.split('-')[0]`: the characters before the first dash. -/
def takeUntilDash : List Char → List Char
  | [] => []
  | ch :: rest => if ch = '-' then [] else ch :: takeUntilDash rest

/-- The primary subtag of a language tag, as computed by `split('-')[0]`. -/
def primarySubtag (s : String) : String :=
  String.mk (takeUntilDash s.data)

/-- Arguments of a `translationClient.translateText` call: the contents and
the source/target language codes (`parent` is constant and elided). -/
structure TranslateCall : Type where
  contents : String
  sourceLanguageCode : String
  targetLanguageCode : String
deriving DecidableEq

/-- The state the `streamingRecognize` closures capture at creation: the
speaker's resolved username and the two language records in scope in the
`audioChunk` handler when the stream was created. -/
structure Session : Type where
  sid : Nat
  username : String
  currentLangs : JsObj
  remoteLangs : JsObj
deriving DecidableEq

/-- A `setTimeout(STT_STREAM_TIMEOUT_MS)` renewal timer armed at session
creation; `sessId` is the session it was armed for, `sockId` the socket id the
timer callback captured.  `cleared` is set by the `clearTimeout` listeners
registered on `disconnect`/`disconnectCall`; `fired` once the callback ran. -/
structure Timer : Type where
  sessId : Nat
  sockId : String
  cleared : Bool
  fired : Bool
deriving DecidableEq

/-- The process-wide mutable state of the server: the five top-level maps,
the pending renewal timers, the connected sockets and a freshness counter for
session ids. -/
structure ServerState : Type where
  connected : List String
  usernameToSocketId : List (String × String)
  socketIdToUsername : List (String × String)
  userLanguages : List (String × JsObj)
  activeCalls : List (String × String)
  activeSpeechStreams : List (String × Session)
  timers : List Timer
  nextId : Nat
deriving DecidableEq

/-- The state at server start: every map empty. -/
def initState : ServerState :=
  { connected := [], usernameToSocketId := [], socketIdToUsername := [],
    userLanguages := [], activeCalls := [], activeSpeechStreams := [],
    timers := [], nextId := 0 }

/-- Targets of a `socket.io` emission: `io.to(id).emit`/`socket.emit` reach one
socket, `io.emit` reaches every connected socket. -/
inductive EmitTarget : Type
  | socket : String → EmitTarget
  | all : EmitTarget
deriving DecidableEq

/-- Payloads of the outbound events the server emits. -/
inductive Payload : Type
  | registrationSuccess : String → Payload
  | registrationFailed : String → Payload
  | callUserOffer : String → Payload
  | callFailed : String → Payload
  | callAccepted : String → Payload
  | peerDisconnected : Payload
  | liveSubtitle : (speakerId : String) → (text : String) → (isFinal : Bool) → Payload
deriving DecidableEq

/-- One outbound emission. -/
structure Emit : Type where
  target : EmitTarget
  payload : Payload
deriving DecidableEq

/-- Which sockets receive an emission: a broadcast reaches every connected
socket, a targeted emission only its addressee. -/
def receives (connected : List String) (e : Emit) : List String :=
  match e.target with
  | EmitTarget.all => connected
  | EmitTarget.socket s => if connected.contains s then [s] else []

/-- Inbound events driving the server, one constructor per socket handler plus
transport connect, the provider stream error callback and the renewal timer
callback. -/
inductive Event : Type
  | connect : String → Event
  | registerUsername : (c : String) → (username : String) → Event
  | callUser : (c : String) → (userToCall : String) → Event
  | answerCall : (c : String) → (toName : String) → Event
  | updateLanguageSettings : (c : String) → (data : JsObj) → Event
  | audioChunk : (c : String) → (chunkLen : Nat) → (sampleRate : Nat) → Event
  | sttError : (c : String) → Event
  | timerFire : (sessId : Nat) → Event
  | disconnectCall : (c : String) → Event
  | disconnect : (c : String) → Event
deriving DecidableEq

/-- The `registerUsername` handler: reject a taken name before any mutation,
otherwise bind both directions and install the default language record. -/
def defaultLangs : JsObj :=
  [("sourceLanguage", JsVal.str "en-US"),
   ("targetLanguage", JsVal.str "es"),
   ("sttSourceLanguages", JsVal.arr ["en-US", "he-IL", "ru-RU"])]

def stepRegister (st : ServerState) (c u : String) : ServerState × List Emit :=
  if mhas st.usernameToSocketId u then
    (st, [⟨EmitTarget.socket c, Payload.registrationFailed u⟩])
  else
    ({st with
        usernameToSocketId := mset st.usernameToSocketId u c,
        socketIdToUsername := mset st.socketIdToUsername c u,
        userLanguages := mset st.userLanguages c defaultLangs },
     [⟨EmitTarget.socket c, Payload.registrationSuccess u⟩])

/-- The `callUser` handler: pure signaling relay, no state change. -/
def stepCallUser (st : ServerState) (c target : String) : ServerState × List Emit :=
  match mget st.socketIdToUsername c with
  | none => (st, [])
  | some callerUsername =>
    if callerUsername = "" then (st, [])
    else
      match mget st.usernameToSocketId target with
      | some calleeSocketId => (st, [⟨EmitTarget.socket calleeSocketId, Payload.callUserOffer callerUsername⟩])
      | none => (st, [⟨EmitTarget.socket c, Payload.callFailed target⟩])

/-- The `answerCall` handler: when the answerer is registered and the declared
target name is online, emit `callAccepted` and record the association in both
directions; otherwise do nothing. -/
def stepAnswer (st : ServerState) (c toName : String) : ServerState × List Emit :=
  match mget st.socketIdToUsername c with
  | none => (st, [])
  | some calleeUsername =>
    if calleeUsername = "" then (st, [])
    else
      match mget st.usernameToSocketId toName with
      | none => (st, [])
      | some callerSocketId =>
        ({st with activeCalls := mset (mset st.activeCalls callerSocketId calleeUsername) c toName},
         [⟨EmitTarget.socket callerSocketId, Payload.callAccepted calleeUsername⟩])

/-- The `settingsChanged` test of the `updateLanguageSettings` handler, as
written in the source: it reads `currentLangs.source` — a key the stored
records never contain (they store `sourceLanguage`) — so the left comparand is
always `undefined`. -/
def settingsChanged (currentLangs data : JsObj) : Bool :=
  !(objGet currentLangs "source" = objGet data "sourceLanguage")
  || !(jsonStringify (objGet currentLangs "sttSourceLanguages")
        = jsonStringify (objGet data "sttSourceLanguages"))

/-- The record stored by `updateLanguageSettings`: the three destructured
fields of the client payload (each possibly `undefined`). -/
def newLangRecord (data : JsObj) : JsObj :=
  [("sourceLanguage", objGet data "sourceLanguage"),
   ("targetLanguage", objGet data "targetLanguage"),
   ("sttSourceLanguages", objGet data "sttSourceLanguages")]

/-- The `updateLanguageSettings` handler: always replace the record; destroy
the active stream when `settingsChanged` and one exists.  The `destroy()` call
has no further observable effect on the modeled state. -/
def stepUpdateLangs (st : ServerState) (c : String) (data : JsObj) : ServerState × List Emit :=
  if settingsChanged ((mget st.userLanguages c).getD []) data && mhas st.activeSpeechStreams c then
    ({st with
        userLanguages := mset st.userLanguages c (newLangRecord data),
        activeSpeechStreams := mdel st.activeSpeechStreams c}, [])
  else
    ({st with userLanguages := mset st.userLanguages c (newLangRecord data)}, [])

/-- The `audioChunk` handler: drop the chunk unless the speaker is registered
with a language record, the chunk is non-empty, and the call pairing resolves
to a registered remote peer; then lazily create the provider stream capturing
the records in scope, arm its renewal timer, and write the chunk (the write
has no effect on the modeled state). -/
def stepAudio (st : ServerState) (c : String) (chunkLen : Nat) (_sampleRate : Nat) :
    ServerState × List Emit :=
  match mget st.socketIdToUsername c, mget st.userLanguages c with
  | some username, some currentLangs =>
    if username = "" then (st, [])
    else if chunkLen = 0 then (st, [])
    else
      match (mget st.activeCalls c).bind (fun p => mget st.usernameToSocketId p) with
      | none => (st, [])
      | some remoteSocketId =>
        if remoteSocketId = "" then (st, [])
        else
          match mget st.userLanguages remoteSocketId with
          | none => (st, [])
          | some remoteLangs =>
            if mhas st.activeSpeechStreams c then (st, [])
            else
              ({st with
                  activeSpeechStreams := mset st.activeSpeechStreams c
                    ⟨st.nextId, username, currentLangs, remoteLangs⟩,
                  timers := st.timers ++ [⟨st.nextId, c, false, false⟩],
                  nextId := st.nextId + 1},
               [])
  | _, _ => (st, [])

/-- The stream `error` callback: it only deletes the map entry under its
captured socket id; it does not cancel the renewal timer. -/
def stepSttError (st : ServerState) (c : String) : ServerState × List Emit :=
  ({st with activeSpeechStreams := mdel st.activeSpeechStreams c}, [])

/-- The renewal timer callback: if this timer is still live, destroy the
captured stream when not yet destroyed and unconditionally delete the
`activeSpeechStreams` entry under the captured socket id — whatever session
currently occupies it. -/
def stepTimerFire (st : ServerState) (sid : Nat) : ServerState × List Emit :=
  match st.timers.find? (fun t => t.sessId == sid) with
  | none => (st, [])
  | some t =>
    if t.cleared || t.fired then (st, [])
    else
      ({st with
          activeSpeechStreams := mdel st.activeSpeechStreams t.sockId,
          timers := st.timers.map (fun t2 => if t2.sessId == sid then {t2 with fired := true} else t2)},
       [])

/-- The peer-notification prefix of `handleDisconnect`: when the departing
socket has a truthy call association whose peer name resolves to a truthy
socket id, notify that socket and delete its association. -/
def peerNotify (st : ServerState) (c : String) : ServerState × List Emit :=
  match mget st.activeCalls c with
  | none => (st, [])
  | some peerUsername =>
    if peerUsername = "" then (st, [])
    else
      match mget st.usernameToSocketId peerUsername with
      | none => (st, [])
      | some peerSocketId =>
        if peerSocketId = "" then (st, [])
        else
          ({st with activeCalls := mdel st.activeCalls peerSocketId},
           [⟨EmitTarget.socket peerSocketId, Payload.peerDisconnected⟩])

/-- The deletion suffix of `handleDisconnect`: remove the socket's entries
under its current name and id from the directory, the language store, the
call associations and the live-stream map. -/
def purgeMaps (s : ServerState) (c username : String) : ServerState :=
  {s with
     activeSpeechStreams := mdel s.activeSpeechStreams c,
     usernameToSocketId := mdel s.usernameToSocketId username,
     socketIdToUsername := mdel s.socketIdToUsername c,
     userLanguages := mdel s.userLanguages c,
     activeCalls := mdel s.activeCalls c}

/-- `handleDisconnect`: a no-op for a socket without a truthy username;
otherwise notify the peer and purge the socket's map entries. -/
def handleDisconnect (st : ServerState) (c : String) : ServerState × List Emit :=
  match mget st.socketIdToUsername c with
  | none => (st, [])
  | some username =>
    if username = "" then (st, [])
    else (purgeMaps (peerNotify st c).1 c username, (peerNotify st c).2)

/-- The `clearTimeout` listeners each stream creation registered on
`disconnect`/`disconnectCall`: together they clear every timer armed for this
socket. -/
def clearSocketTimers (ts : List Timer) (c : String) : List Timer :=
  ts.map (fun t => if t.sockId = c then {t with cleared := true} else t)

/-- Reaction to the `disconnectCall` event: `handleDisconnect` plus the
accumulated `clearTimeout` listeners. -/
def stepDisconnectCall (st : ServerState) (c : String) : ServerState × List Emit :=
  let r := handleDisconnect st c
  ({r.1 with timers := clearSocketTimers r.1.timers c}, r.2)

/-- Reaction to the transport `disconnect` event: the same listeners, and the
socket leaves the connected set. -/
def stepDisconnect (st : ServerState) (c : String) : ServerState × List Emit :=
  let r := stepDisconnectCall st c
  ({r.1 with connected := r.1.connected.erase c}, r.2)

/-- One reaction of the server to an inbound event. -/
def step (st : ServerState) : Event → ServerState × List Emit
  | Event.connect c => ({st with connected := st.connected ++ [c]}, [])
  | Event.registerUsername c u => stepRegister st c u
  | Event.callUser c target => stepCallUser st c target
  | Event.answerCall c toName => stepAnswer st c toName
  | Event.updateLanguageSettings c data => stepUpdateLangs st c data
  | Event.audioChunk c len rate => stepAudio st c len rate
  | Event.sttError c => stepSttError st c
  | Event.timerFire sid => stepTimerFire st sid
  | Event.disconnectCall c => stepDisconnectCall st c
  | Event.disconnect c => stepDisconnect st c

/-- The state component of a reaction. -/
def stepState (st : ServerState) (e : Event) : ServerState :=
  (step st e).1

/-- The emissions of a reaction. -/
def stepEmits (st : ServerState) (e : Event) : List Emit :=
  (step st e).2

/-- The state reached from server start by a sequence of events. -/
def runTrace (tr : List Event) : ServerState :=
  tr.foldl stepState initState

/-- The `streamingRecognize` `data` closure for one transcript result: decide
translation from the captured records, fall back to the untranslated
transcript when the provider call fails (the `catch` branch), and emit a
single `liveSubtitle` broadcast.  `none` models the `TypeError` thrown when
`split` is applied to a non-string language value; `translate` is the external
provider, `none` being a failed call. -/
def handleTranscript (sess : Session) (transcript : String) (isFinal : Bool)
    (translate : TranslateCall → Option String) :
    Option (List Emit × List TranslateCall) :=
  if isFinal && !(transcript = "") && jsTruthy (objGet sess.remoteLangs "targetLanguage") then
    match objGet sess.currentLangs "sourceLanguage", objGet sess.remoteLangs "targetLanguage" with
    | JsVal.str src, JsVal.str tgt =>
      if primarySubtag src = primarySubtag tgt then
        some ([⟨EmitTarget.all, Payload.liveSubtitle sess.username transcript isFinal⟩], [])
      else
        some ([⟨EmitTarget.all,
                Payload.liveSubtitle sess.username
                  ((translate ⟨transcript, primarySubtag src, primarySubtag tgt⟩).getD transcript)
                  isFinal⟩],
              [⟨transcript, primarySubtag src, primarySubtag tgt⟩])
    | _, _ => none
  else
    some ([⟨EmitTarget.all, Payload.liveSubtitle sess.username transcript isFinal⟩], [])

/-- Processing of a provider transcript event for a connection in a given
server state: dispatched to the `data` closure of its live session, dropped
when none exists. -/
def stepTranscript (st : ServerState) (c : String) (transcript : String) (isFinal : Bool)
    (translate : TranslateCall → Option String) :
    Option (List Emit × List TranslateCall) :=
  (mget st.activeSpeechStreams c).bind
    (fun sess => handleTranscript sess transcript isFinal translate)

/-- Count of pending (armed, neither cleared nor fired) renewal timers of a
socket. -/
def countPending (ts : List Timer) (c : String) : Nat :=
  match ts with
  | [] => 0
  | t :: rest =>
    (if t.sockId = c ∧ t.cleared = false ∧ t.fired = false then 1 else 0) + countPending rest c

/-- No emission in the list is a broadcast. -/
def noBroadcastB (es : List Emit) : Bool :=
  es.all (fun e => match e.target with
    | EmitTarget.all => false
    | EmitTarget.socket _ => true)

/-- Name-directory coherence: the reverse directory always points back. -/
def DirInv (st : ServerState) : Prop :=
  ∀ c u, mget st.socketIdToUsername c = some u → mget st.usernameToSocketId u = some c

/-- A session concretely reachable on socket `A` after pairing with `B`:
the captured records are the registration defaults. -/
def sessW : Session :=
  ⟨0, "alice", defaultLangs, defaultLangs⟩

/-- A trace reaching a three-party state in which `A` (alice) is in a call
with `B` (bob) and holds a live session, while `C` (carol) is a bystander. -/
def trC2 : List Event :=
  [Event.connect "A", Event.connect "B", Event.connect "C",
   Event.registerUsername "A" "alice", Event.registerUsername "B" "bob",
   Event.registerUsername "C" "carol",
   Event.answerCall "B" "alice",
   Event.audioChunk "A" 3200 16000]

/-- A translation provider that succeeds, marking its output. -/
def translateW : TranslateCall → Option String :=
  fun call => some (String.append "T:" call.contents)

/-- The result of the `data` closure on `sessW` for a final transcript under
`translateW`. -/
def outC2 : List Emit × List TranslateCall :=
  ([⟨EmitTarget.all, Payload.liveSubtitle "alice" "T:hello" true⟩],
   [⟨"hello", "en", "es"⟩])

/-- The single broadcast emission of `outC2`. -/
def emitC2 : Emit :=
  ⟨EmitTarget.all, Payload.liveSubtitle "alice" "T:hello" true⟩

/-- Claim C2, formalized: every recipient of any emission of a transcript
event on a live session is the speaker or the socket its call association
currently resolves to. -/
def claimC2Prop : Prop :=
  ∀ (tr : List Event) (c : String) (sess : Session) (transcript : String) (isFinal : Bool)
    (translate : TranslateCall → Option String) (out : List Emit × List TranslateCall),
    mget (runTrace tr).activeSpeechStreams c = some sess →
    handleTranscript sess transcript isFinal translate = some out →
    ∀ e, e ∈ out.1 → ∀ r, r ∈ receives (runTrace tr).connected e →
      (r = c ∨ (mget (runTrace tr).activeCalls c).bind
          (fun p => mget (runTrace tr).usernameToSocketId p) = some r)

/-- Client payload for a language-settings update that genuinely narrows the
recognition set. -/
def updData : JsObj :=
  [("sourceLanguage", JsVal.str "en-US"),
   ("targetLanguage", JsVal.str "es"),
   ("sttSourceLanguages", JsVal.arr ["en-US"])]

/-- A trace in which `A`'s first session is torn down by a language change and
a second session is created: both renewal timers are still pending. -/
def trC3 : List Event :=
  [Event.connect "A", Event.connect "B",
   Event.registerUsername "A" "alice", Event.registerUsername "B" "bob",
   Event.answerCall "B" "alice",
   Event.audioChunk "A" 3200 16000,
   Event.updateLanguageSettings "A" updData,
   Event.audioChunk "A" 3200 16000]

/-- Claim C3 (timer part), formalized: at most one pending renewal timer per
connection at every reachable state. -/
def claimC3Prop : Prop :=
  ∀ (tr : List Event) (c : String), countPending (runTrace tr).timers c ≤ 1

/-- Claim C4, formalized: a successful registration emits some broadcast (the
online-users list) to all connections. -/
def claimC4Prop : Prop :=
  ∀ (st : ServerState) (c u : String),
    mhas st.usernameToSocketId u = false →
    (stepEmits st (Event.registerUsername c u)).any
      (fun e => match e.target with
        | EmitTarget.all => true
        | EmitTarget.socket _ => false) = true

/-- Client payload structurally identical to the stored default record. -/
def sameData : JsObj :=
  [("sourceLanguage", JsVal.str "en-US"),
   ("targetLanguage", JsVal.str "es"),
   ("sttSourceLanguages", JsVal.arr ["en-US", "he-IL", "ru-RU"])]

/-- A trace reaching a state in which `A` is in a call with `B` and holds a
live session with the default language record. -/
def trC5 : List Event :=
  [Event.connect "A", Event.connect "B",
   Event.registerUsername "A" "alice", Event.registerUsername "B" "bob",
   Event.answerCall "B" "alice",
   Event.audioChunk "A" 3200 16000]

/-- Recognizer for call-request events. -/
def isCallUserB : Event → Bool
  | Event.callUser _ _ => true
  | _ => false

/-- Claim C6, formalized on the representative family: in a trace containing
no call request at all, every answer is orphaned, so no call association may
exist. -/
def claimC6Prop : Prop :=
  ∀ tr : List Event, tr.all (fun e => !(isCallUserB e)) = true →
    (runTrace tr).activeCalls = []

/-- A trace in which `bob` answers `alice` although no call request was ever
made. -/
def trC6 : List Event :=
  [Event.connect "A", Event.connect "B",
   Event.registerUsername "A" "alice", Event.registerUsername "B" "bob",
   Event.answerCall "B" "alice"]

/-- Claim C8, formalized: the disconnect reaction removes the connection's
entries from every map, including every forward directory entry resolving to
it. -/
def claimC8Prop : Prop :=
  ∀ (tr : List Event) (c : String),
    mget (stepState (runTrace tr) (Event.disconnectCall c)).socketIdToUsername c = none
    ∧ mget (stepState (runTrace tr) (Event.disconnectCall c)).userLanguages c = none
    ∧ mget (stepState (runTrace tr) (Event.disconnectCall c)).activeCalls c = none
    ∧ mget (stepState (runTrace tr) (Event.disconnectCall c)).activeSpeechStreams c = none
    ∧ ∀ u, ¬ mget (stepState (runTrace tr) (Event.disconnectCall c)).usernameToSocketId u = some c

/-- A trace in which a never-registered socket stores language settings: the
disconnect reaction is then a complete no-op and the settings survive. -/
def trC8 : List Event :=
  [Event.connect "A", Event.updateLanguageSettings "A" sameData]

/-- Sessions of a connection at a state: the live-stream map holds at most one
entry per socket id. -/
def SessBound (st : ServerState) : Prop :=
  ∀ c, countKey st.activeSpeechStreams c ≤ 1

/-- A translation provider that always fails. -/
def translateFails : TranslateCall → Option String :=
  fun _ => none

/-- Output of the `data` closure on `sessW` under a failing provider. -/
def outW : List Emit × List TranslateCall :=
  ([⟨EmitTarget.all, Payload.liveSubtitle "alice" "hi" true⟩],
   [⟨"hi", "en", "es"⟩])

/-- A trace registering `alice` on socket `A`. -/
def trReg : List Event :=
  [Event.connect "A", Event.registerUsername "A" "alice"]

/-- A trace with `alice` and `bob` registered and not in any call. -/
def trC6w : List Event :=
  [Event.connect "A", Event.connect "B",
   Event.registerUsername "A" "alice", Event.registerUsername "B" "bob"]

/-- A trace reaching a state in which `A` (alice) is in a call with `B` (bob)
and holds a live session. -/
def trC8w : List Event :=
  [Event.connect "A", Event.connect "B",
   Event.registerUsername "A" "alice", Event.registerUsername "B" "bob",
   Event.answerCall "B" "alice",
   Event.audioChunk "A" 3200 16000]

/-- A trace identical in effect to `trC8w`, kept separate for the closure
capture examples. -/
def trC10 : List Event :=
  [Event.connect "A", Event.connect "B",
   Event.registerUsername "A" "alice", Event.registerUsername "B" "bob",
   Event.answerCall "B" "alice",
   Event.audioChunk "A" 3200 16000]

/-- A client payload switching the peer to French. -/
def dataC10 : JsObj :=
  [("sourceLanguage", JsVal.str "fr-FR"),
   ("targetLanguage", JsVal.str "fr"),
   ("sttSourceLanguages", JsVal.arr ["fr-FR"])]

theorem mget_mdel_self {α : Type} (m : List (String × α)) (k : String) :
    mget (mdel m k) k = none := by
  induction m with
  | nil => rfl
  | cons p rest ih =>
    obtain ⟨k2, v⟩ := p
    by_cases h : k2 = k
    · simpa [mdel, h] using ih
    · simpa [mdel, mget, h] using ih

theorem mget_mdel_ne {α : Type} (m : List (String × α)) (k k' : String) (h : k' ≠ k) :
    mget (mdel m k) k' = mget m k' := by
  induction m with
  | nil => rfl
  | cons p rest ih =>
    obtain ⟨k2, v⟩ := p
    by_cases h2 : k2 = k
    · subst h2
      simp [mdel, mget, ih, Ne.symm h]
    · by_cases h3 : k2 = k'
      · subst h3
        simp [mdel, mget, h2]
      · simp [mdel, mget, h2, h3, ih]

theorem mget_mset_self {α : Type} (m : List (String × α)) (k : String) (v : α) :
    mget (mset m k v) k = some v := by
  simp [mset, mget]

theorem mget_mset_ne {α : Type} (m : List (String × α)) (k k' : String) (v : α) (h : k' ≠ k) :
    mget (mset m k v) k' = mget m k' := by
  have : k ≠ k' := fun hx => h hx.symm
  simp [mset, mget, this, mget_mdel_ne m k k' h]

theorem mhas_false {α : Type} (m : List (String × α)) (k : String) (h : mhas m k = false) :
    mget m k = none := by
  unfold mhas at h
  cases hm : mget m k with
  | none => rfl
  | some v => rw [hm] at h; simp at h

theorem countKey_mdel {α : Type} (m : List (String × α)) (k c : String) :
    countKey (mdel m k) c = if c = k then 0 else countKey m c := by
  induction m with
  | nil => simp [mdel, countKey]
  | cons p rest ih =>
    obtain ⟨k2, v⟩ := p
    by_cases h2 : k2 = k
    · subst h2
      by_cases h3 : c = k2
      · subst h3
        simp [mdel, countKey, ih]
      · have h4 : ¬ k2 = c := fun hx => h3 hx.symm
        simp [mdel, countKey, h3, h4, ih]
    · by_cases h3 : c = k
      · subst h3
        simp [mdel, countKey, h2, ih]
      · simp [mdel, countKey, h2, h3, ih]

theorem countKey_mset {α : Type} (m : List (String × α)) (k c : String) (v : α) :
    countKey (mset m k v) c = if c = k then 1 else countKey m c := by
  by_cases h : c = k
  · simp [mset, countKey, h, countKey_mdel]
  · have : k ≠ c := fun hx => h hx.symm
    simp [mset, countKey, h, this, countKey_mdel]

theorem countPending_clear (ts : List Timer) (c : String) :
    countPending (clearSocketTimers ts c) c = 0 := by
  induction ts with
  | nil => rfl
  | cons t rest ih =>
    by_cases h : t.sockId = c
    · simp [clearSocketTimers, countPending, h] at ih ⊢
      exact ih
    · simp [clearSocketTimers, countPending, h] at ih ⊢
      exact ih

theorem clearSocketTimers_idem (ts : List Timer) (c : String) :
    clearSocketTimers (clearSocketTimers ts c) c = clearSocketTimers ts c := by
  induction ts with
  | nil => rfl
  | cons t rest ih =>
    by_cases h : t.sockId = c
    · simp [clearSocketTimers, h] at ih ⊢
      exact ih
    · simp [clearSocketTimers, h] at ih ⊢
      exact ih

theorem peerNotify_fields (st : ServerState) (c : String) :
    (peerNotify st c).1.socketIdToUsername = st.socketIdToUsername
    ∧ (peerNotify st c).1.usernameToSocketId = st.usernameToSocketId
    ∧ (peerNotify st c).1.userLanguages = st.userLanguages
    ∧ (peerNotify st c).1.activeSpeechStreams = st.activeSpeechStreams
    ∧ (peerNotify st c).1.timers = st.timers
    ∧ (peerNotify st c).1.connected = st.connected
    ∧ (peerNotify st c).1.nextId = st.nextId := by
  unfold peerNotify
  repeat' split
  all_goals exact ⟨rfl, rfl, rfl, rfl, rfl, rfl, rfl⟩

theorem handleDisconnect_timers (st : ServerState) (c : String) :
    (handleDisconnect st c).1.timers = st.timers := by
  unfold handleDisconnect
  repeat' split
  · rfl
  · rfl
  · exact (peerNotify_fields st c).2.2.2.2.1

theorem handleDisconnect_connected (st : ServerState) (c : String) :
    (handleDisconnect st c).1.connected = st.connected := by
  unfold handleDisconnect
  repeat' split
  · rfl
  · rfl
  · exact (peerNotify_fields st c).2.2.2.2.2.1

theorem dirInv_of_eq (st' st : ServerState)
    (hS : st'.socketIdToUsername = st.socketIdToUsername)
    (hU : st'.usernameToSocketId = st.usernameToSocketId)
    (h : DirInv st) : DirInv st' := by
  intro c u hg
  rw [hS] at hg
  rw [hU]
  exact h c u hg

theorem sessBound_of_eq (st' st : ServerState)
    (hs : st'.activeSpeechStreams = st.activeSpeechStreams)
    (h : SessBound st) : SessBound st' := by
  intro c
  rw [hs]
  exact h c

theorem stepCallUser_state (st : ServerState) (c t : String) :
    (stepCallUser st c t).1 = st := by
  unfold stepCallUser
  repeat' split
  all_goals rfl

theorem stepRegister_fields (st : ServerState) (c u : String) :
    (stepRegister st c u).1.activeSpeechStreams = st.activeSpeechStreams
    ∧ (stepRegister st c u).1.connected = st.connected
    ∧ (stepRegister st c u).1.timers = st.timers
    ∧ (stepRegister st c u).1.activeCalls = st.activeCalls := by
  unfold stepRegister
  split
  all_goals exact ⟨rfl, rfl, rfl, rfl⟩

theorem stepAnswer_fields (st : ServerState) (c t : String) :
    (stepAnswer st c t).1.socketIdToUsername = st.socketIdToUsername
    ∧ (stepAnswer st c t).1.usernameToSocketId = st.usernameToSocketId
    ∧ (stepAnswer st c t).1.activeSpeechStreams = st.activeSpeechStreams
    ∧ (stepAnswer st c t).1.connected = st.connected
    ∧ (stepAnswer st c t).1.timers = st.timers
    ∧ (stepAnswer st c t).1.userLanguages = st.userLanguages := by
  unfold stepAnswer
  repeat' split
  all_goals exact ⟨rfl, rfl, rfl, rfl, rfl, rfl⟩

theorem stepUpdateLangs_fields (st : ServerState) (c : String) (data : JsObj) :
    (stepUpdateLangs st c data).1.socketIdToUsername = st.socketIdToUsername
    ∧ (stepUpdateLangs st c data).1.usernameToSocketId = st.usernameToSocketId
    ∧ (stepUpdateLangs st c data).1.connected = st.connected
    ∧ (stepUpdateLangs st c data).1.timers = st.timers
    ∧ (stepUpdateLangs st c data).1.activeCalls = st.activeCalls := by
  unfold stepUpdateLangs
  split
  all_goals exact ⟨rfl, rfl, rfl, rfl, rfl⟩

theorem stepUpdateLangs_sessions (st : ServerState) (c : String) (data : JsObj) :
    (stepUpdateLangs st c data).1.activeSpeechStreams = st.activeSpeechStreams
    ∨ (stepUpdateLangs st c data).1.activeSpeechStreams = mdel st.activeSpeechStreams c := by
  unfold stepUpdateLangs
  split
  · exact Or.inr rfl
  · exact Or.inl rfl

theorem stepAudio_fields (st : ServerState) (c : String) (len rate : Nat) :
    (stepAudio st c len rate).1.socketIdToUsername = st.socketIdToUsername
    ∧ (stepAudio st c len rate).1.usernameToSocketId = st.usernameToSocketId
    ∧ (stepAudio st c len rate).1.connected = st.connected
    ∧ (stepAudio st c len rate).1.userLanguages = st.userLanguages
    ∧ (stepAudio st c len rate).1.activeCalls = st.activeCalls := by
  unfold stepAudio
  repeat' split
  all_goals exact ⟨rfl, rfl, rfl, rfl, rfl⟩

theorem stepAudio_sessions (st : ServerState) (c : String) (len rate : Nat) :
    (stepAudio st c len rate).1.activeSpeechStreams = st.activeSpeechStreams
    ∨ ∃ s, (stepAudio st c len rate).1.activeSpeechStreams = mset st.activeSpeechStreams c s := by
  unfold stepAudio
  repeat' split
  all_goals first
    | exact Or.inl rfl
    | exact Or.inr ⟨_, rfl⟩

theorem stepTimerFire_fields (st : ServerState) (sid : Nat) :
    (stepTimerFire st sid).1.socketIdToUsername = st.socketIdToUsername
    ∧ (stepTimerFire st sid).1.usernameToSocketId = st.usernameToSocketId
    ∧ (stepTimerFire st sid).1.connected = st.connected
    ∧ (stepTimerFire st sid).1.userLanguages = st.userLanguages
    ∧ (stepTimerFire st sid).1.activeCalls = st.activeCalls := by
  unfold stepTimerFire
  repeat' split
  all_goals exact ⟨rfl, rfl, rfl, rfl, rfl⟩

theorem stepTimerFire_sessions (st : ServerState) (sid : Nat) :
    (stepTimerFire st sid).1.activeSpeechStreams = st.activeSpeechStreams
    ∨ ∃ c, (stepTimerFire st sid).1.activeSpeechStreams = mdel st.activeSpeechStreams c := by
  unfold stepTimerFire
  repeat' split
  all_goals first
    | exact Or.inl rfl
    | exact Or.inr ⟨_, rfl⟩

theorem handleDisconnect_sessions (st : ServerState) (c : String) :
    (handleDisconnect st c).1.activeSpeechStreams = st.activeSpeechStreams
    ∨ (handleDisconnect st c).1.activeSpeechStreams = mdel st.activeSpeechStreams c := by
  rcases hU : mget st.socketIdToUsername c with _ | username
  · left
    simp only [handleDisconnect, hU]
  · by_cases hue : username = ""
    · left
      simp only [handleDisconnect, hU, if_pos hue]
    · right
      simp only [handleDisconnect, hU, if_neg hue, purgeMaps]
      rw [(peerNotify_fields st c).2.2.2.1]

theorem handleDisconnect_dirInv (st : ServerState) (c : String) (h : DirInv st) :
    DirInv (handleDisconnect st c).1 := by
  rcases hU : mget st.socketIdToUsername c with _ | username
  · simp only [handleDisconnect, hU]
    exact h
  · by_cases hue : username = ""
    · simp only [handleDisconnect, hU, if_pos hue]
      exact h
    · simp only [handleDisconnect, hU, if_neg hue]
      intro c' u' hg
      have hpn := peerNotify_fields st c
      simp only [purgeMaps] at hg ⊢
      rw [hpn.1] at hg
      rw [hpn.2.1]
      by_cases hcc : c' = c
      · subst hcc
        rw [mget_mdel_self] at hg
        exact absurd hg (by simp)
      · rw [mget_mdel_ne _ _ _ hcc] at hg
        have hg' := h c' u' hg
        by_cases huu : u' = username
        · subst huu
          have hc := h c u' hU
          rw [hg'] at hc
          exact absurd (Option.some.inj hc) hcc
        · rw [mget_mdel_ne _ _ _ huu]
          exact hg'

theorem dirInv_step (st : ServerState) (e : Event) (h : DirInv st) :
    DirInv (stepState st e) := by
  cases e with
  | connect c => exact h
  | registerUsername c u =>
    intro c' u' hg
    simp only [stepState, step, stepRegister] at hg ⊢
    cases ht : mhas st.usernameToSocketId u with
    | true =>
      simp only [ht, if_true] at hg ⊢
      exact h c' u' hg
    | false =>
      simp only [ht, Bool.false_eq_true, if_false] at hg ⊢
      by_cases hc : c' = c
      · subst hc
        rw [mget_mset_self] at hg
        have hu := Option.some.inj hg
        subst hu
        rw [mget_mset_self]
      · rw [mget_mset_ne _ _ _ _ hc] at hg
        have hg' := h c' u' hg
        by_cases hu : u' = u
        · subst hu
          have hnone : mget st.usernameToSocketId u' = none := mhas_false _ _ ht
          rw [hnone] at hg'
          exact absurd hg' (by simp)
        · rw [mget_mset_ne _ _ _ _ hu]
          exact hg'
  | callUser c t =>
    refine dirInv_of_eq _ st ?_ ?_ h
    · show (stepCallUser st c t).1.socketIdToUsername = st.socketIdToUsername
      rw [stepCallUser_state]
    · show (stepCallUser st c t).1.usernameToSocketId = st.usernameToSocketId
      rw [stepCallUser_state]
  | answerCall c t =>
    exact dirInv_of_eq _ st (stepAnswer_fields st c t).1 (stepAnswer_fields st c t).2.1 h
  | updateLanguageSettings c data =>
    exact dirInv_of_eq _ st (stepUpdateLangs_fields st c data).1
      (stepUpdateLangs_fields st c data).2.1 h
  | audioChunk c len rate =>
    exact dirInv_of_eq _ st (stepAudio_fields st c len rate).1
      (stepAudio_fields st c len rate).2.1 h
  | sttError c => exact h
  | timerFire sid =>
    exact dirInv_of_eq _ st (stepTimerFire_fields st sid).1
      (stepTimerFire_fields st sid).2.1 h
  | disconnectCall c => exact handleDisconnect_dirInv st c h
  | disconnect c => exact handleDisconnect_dirInv st c h

theorem sessBound_step (st : ServerState) (e : Event) (h : SessBound st) :
    SessBound (stepState st e) := by
  have hmdel : ∀ (m : List (String × Session)) (k : String),
      (∀ c, countKey m c ≤ 1) → ∀ c, countKey (mdel m k) c ≤ 1 := by
    intro m k hm c
    rw [countKey_mdel]
    split
    · omega
    · exact hm c
  have hmset : ∀ (m : List (String × Session)) (k : String) (s : Session),
      (∀ c, countKey m c ≤ 1) → ∀ c, countKey (mset m k s) c ≤ 1 := by
    intro m k s hm c
    rw [countKey_mset]
    split
    · omega
    · exact hm c
  cases e with
  | connect c => exact h
  | registerUsername c u => exact sessBound_of_eq _ st (stepRegister_fields st c u).1 h
  | callUser c t =>
    refine sessBound_of_eq _ st ?_ h
    show (stepCallUser st c t).1.activeSpeechStreams = st.activeSpeechStreams
    rw [stepCallUser_state]
  | answerCall c t => exact sessBound_of_eq _ st (stepAnswer_fields st c t).2.2.1 h
  | updateLanguageSettings c data =>
    rcases stepUpdateLangs_sessions st c data with hs | hs
    · exact sessBound_of_eq _ st hs h
    · intro c'
      show countKey (stepUpdateLangs st c data).1.activeSpeechStreams c' ≤ 1
      rw [hs]
      exact hmdel _ _ h c'
  | audioChunk c len rate =>
    rcases stepAudio_sessions st c len rate with hs | ⟨s, hs⟩
    · exact sessBound_of_eq _ st hs h
    · intro c'
      show countKey (stepAudio st c len rate).1.activeSpeechStreams c' ≤ 1
      rw [hs]
      exact hmset _ _ _ h c'
  | sttError c =>
    intro c'
    show countKey (mdel st.activeSpeechStreams c) c' ≤ 1
    exact hmdel _ _ h c'
  | timerFire sid =>
    rcases stepTimerFire_sessions st sid with hs | ⟨c, hs⟩
    · exact sessBound_of_eq _ st hs h
    · intro c'
      show countKey (stepTimerFire st sid).1.activeSpeechStreams c' ≤ 1
      rw [hs]
      exact hmdel _ _ h c'
  | disconnectCall c =>
    rcases handleDisconnect_sessions st c with hs | hs
    · exact sessBound_of_eq _ (handleDisconnect st c).1 rfl (sessBound_of_eq _ st hs h)
    · intro c'
      show countKey (handleDisconnect st c).1.activeSpeechStreams c' ≤ 1
      rw [hs]
      exact hmdel _ _ h c'
  | disconnect c =>
    rcases handleDisconnect_sessions st c with hs | hs
    · exact sessBound_of_eq _ (handleDisconnect st c).1 rfl (sessBound_of_eq _ st hs h)
    · intro c'
      show countKey (handleDisconnect st c).1.activeSpeechStreams c' ≤ 1
      rw [hs]
      exact hmdel _ _ h c'

theorem foldl_inv (P : ServerState → Prop)
    (hstep : ∀ st e, P st → P (stepState st e)) :
    ∀ (tr : List Event) (st : ServerState), P st → P (tr.foldl stepState st) := by
  intro tr
  induction tr with
  | nil => intro st h; simpa using h
  | cons e rest ih => intro st h; simpa using ih (stepState st e) (hstep st e h)

theorem dirInv_run (tr : List Event) : DirInv (runTrace tr) := by
  have h0 : DirInv initState := by
    intro c u hg
    simp [initState, mget] at hg
  exact foldl_inv DirInv dirInv_step tr initState h0

theorem sessBound_run (tr : List Event) : SessBound (runTrace tr) := by
  have h0 : SessBound initState := by
    intro c
    exact Nat.zero_le 1
  exact foldl_inv SessBound sessBound_step tr initState h0

/-- Claim C1: on a live session (reachable only for a speaker in a call) with
a present source language and a present, non-empty peer target language, the
final-transcript decision of the `data` handler compares the primary subtags
of the session's source language — the detected/declared source the spec
calls `detectedSourceLang` — and of the remote peer's target language: when
they match the transcript is forwarded unmodified with no translation call,
and when they differ on a non-empty transcript exactly one translation call
is issued, with the two primary subtags as source and target codes. -/
theorem C1_translation_decision (sess : Session) (transcript src tgt : String)
    (translate : TranslateCall → Option String)
    (hsrc : objGet sess.currentLangs "sourceLanguage" = JsVal.str src)
    (htgt : objGet sess.remoteLangs "targetLanguage" = JsVal.str tgt)
    (htgtne : tgt ≠ "") :
    (primarySubtag src = primarySubtag tgt →
      handleTranscript sess transcript true translate =
        some ([⟨EmitTarget.all, Payload.liveSubtitle sess.username transcript true⟩], []))
    ∧ (primarySubtag src ≠ primarySubtag tgt → transcript ≠ "" →
      handleTranscript sess transcript true translate =
        some ([⟨EmitTarget.all,
                Payload.liveSubtitle sess.username
                  ((translate ⟨transcript, primarySubtag src, primarySubtag tgt⟩).getD transcript)
                  true⟩],
              [⟨transcript, primarySubtag src, primarySubtag tgt⟩])) := by
  constructor
  · intro heq
    by_cases ht : transcript = ""
    · subst ht
      rfl
    · simp [handleTranscript, hsrc, htgt, jsTruthy, htgtne, ht, heq]
  · intro hne ht
    simp [handleTranscript, hsrc, htgt, jsTruthy, htgtne, ht, hne]

/-- Witness for C1 at the default records: source `en-US`, target `es`. -/
theorem C1_witness :
    (primarySubtag "en-US" = primarySubtag "es" →
      handleTranscript sessW "hello" true translateW =
        some ([⟨EmitTarget.all, Payload.liveSubtitle sessW.username "hello" true⟩], []))
    ∧ (primarySubtag "en-US" ≠ primarySubtag "es" → "hello" ≠ "" →
      handleTranscript sessW "hello" true translateW =
        some ([⟨EmitTarget.all,
                Payload.liveSubtitle sessW.username
                  ((translateW ⟨"hello", primarySubtag "en-US", primarySubtag "es"⟩).getD "hello")
                  true⟩],
              [⟨"hello", primarySubtag "en-US", primarySubtag "es"⟩])) :=
  C1_translation_decision sessW "hello" "en-US" "es" translateW (by decide) (by decide) (by decide)

/-- Claim C9: when the translation provider fails on a mismatched final
transcript, the handler logs and falls back — the one emission carries the
original untranslated text, the event is not dropped, and no error event is
emitted (the emission list is exactly the `liveSubtitle` broadcast). -/
theorem C9_translation_failure (sess : Session) (transcript src tgt : String)
    (translate : TranslateCall → Option String)
    (hsrc : objGet sess.currentLangs "sourceLanguage" = JsVal.str src)
    (htgt : objGet sess.remoteLangs "targetLanguage" = JsVal.str tgt)
    (htgtne : tgt ≠ "") (htr : transcript ≠ "")
    (hdiff : primarySubtag src ≠ primarySubtag tgt)
    (hfail : translate ⟨transcript, primarySubtag src, primarySubtag tgt⟩ = none) :
    handleTranscript sess transcript true translate =
      some ([⟨EmitTarget.all, Payload.liveSubtitle sess.username transcript true⟩],
            [⟨transcript, primarySubtag src, primarySubtag tgt⟩]) := by
  simp [handleTranscript, hsrc, htgt, jsTruthy, htgtne, htr, hdiff, hfail]

/-- Witness for C9: Hebrew transcript, Spanish target, failing provider. -/
theorem C9_witness :
    handleTranscript sessW "hello" true translateFails =
      some ([⟨EmitTarget.all, Payload.liveSubtitle sessW.username "hello" true⟩],
            [⟨"hello", primarySubtag "en-US", primarySubtag "es"⟩]) :=
  C9_translation_failure sessW "hello" "en-US" "es" translateFails
    (by decide) (by decide) (by decide) (by decide) (by decide) rfl

/-- Claim C2 (amended): a transcript event on a live session is emitted as a
single `io.emit` broadcast carrying one (possibly translated) text, delivered
to every connected socket — the speaker, its peer and every bystander alike —
rather than to exactly the speaker and peer. -/
theorem C2_broadcast_delivery (connected : List String) (sess : Session)
    (transcript : String) (isFinal : Bool) (translate : TranslateCall → Option String)
    (out : List Emit × List TranslateCall)
    (h : handleTranscript sess transcript isFinal translate = some out) :
    ∃ text, out.1 = [⟨EmitTarget.all, Payload.liveSubtitle sess.username text isFinal⟩]
      ∧ receives connected ⟨EmitTarget.all, Payload.liveSubtitle sess.username text isFinal⟩
          = connected := by
  unfold handleTranscript at h
  split at h
  · split at h
    · split at h
      · cases Option.some.inj h
        exact ⟨transcript, rfl, rfl⟩
      · cases Option.some.inj h
        exact ⟨_, rfl, rfl⟩
    · cases h
  · cases Option.some.inj h
    exact ⟨transcript, rfl, rfl⟩

/-- Witness for C2 (amended): a concrete two-socket roster receives the
broadcast in full. -/
theorem C2_witness :
    ∃ text, outW.1 = [⟨EmitTarget.all, Payload.liveSubtitle sessW.username text true⟩]
      ∧ receives ["A", "B"] ⟨EmitTarget.all, Payload.liveSubtitle sessW.username text true⟩
          = ["A", "B"] :=
  C2_broadcast_delivery ["A", "B"] sessW "hi" true translateFails outW (by decide)

/-- Counterexample to C2 as stated: in a reachable three-party state, the
bystander socket `C` receives the transcript event of the call between `A`
and `B`, because the emission is an unrestricted broadcast. -/
theorem C2_counterexample : ¬ claimC2Prop := by
  intro h
  have hx := h trC2 "A" sessW "hello" true translateW outC2 (by decide) (by decide)
    emitC2 (by decide) "C" (by decide)
  rcases hx with h1 | h2
  · exact absurd h1 (by decide)
  · exact absurd h2 (by decide)

/-- Claim C10: transcript routing of an existing session uses only the
records the stream closures captured when the session was created — a
language-settings update by any other socket (in particular the remote peer)
and any answer event re-pairing either side leave the session record, and
hence the translation decision and target, unchanged. -/
theorem C10_closure_capture (st : ServerState) (c d : String) (data : JsObj)
    (sess : Session) (e toName transcript : String) (isFinal : Bool)
    (translate : TranslateCall → Option String)
    (h : mget st.activeSpeechStreams c = some sess) (hne : d ≠ c) :
    mget (stepState st (Event.updateLanguageSettings d data)).activeSpeechStreams c = some sess
    ∧ stepTranscript (stepState st (Event.updateLanguageSettings d data)) c transcript isFinal translate
        = handleTranscript sess transcript isFinal translate
    ∧ mget (stepState st (Event.answerCall e toName)).activeSpeechStreams c = some sess
    ∧ stepTranscript (stepState st (Event.answerCall e toName)) c transcript isFinal translate
        = handleTranscript sess transcript isFinal translate := by
  have h1 : mget (stepState st (Event.updateLanguageSettings d data)).activeSpeechStreams c
      = some sess := by
    rcases stepUpdateLangs_sessions st d data with hs | hs
    · show mget (stepUpdateLangs st d data).1.activeSpeechStreams c = some sess
      rw [hs]
      exact h
    · show mget (stepUpdateLangs st d data).1.activeSpeechStreams c = some sess
      rw [hs, mget_mdel_ne _ _ _ (Ne.symm hne)]
      exact h
  have h2 : mget (stepState st (Event.answerCall e toName)).activeSpeechStreams c = some sess := by
    show mget (stepAnswer st e toName).1.activeSpeechStreams c = some sess
    rw [(stepAnswer_fields st e toName).2.2.1]
    exact h
  refine ⟨h1, ?_, h2, ?_⟩
  · simp only [stepTranscript]
    rw [h1]
    rfl
  · simp only [stepTranscript]
    rw [h2]
    rfl

/-- Witness for C10: in the reachable paired state, a French update by the
peer `B` and a fresh answer event leave `A`'s session and its transcript
processing untouched. -/
theorem C10_witness :
    mget (stepState (runTrace trC10) (Event.updateLanguageSettings "B" dataC10)).activeSpeechStreams "A"
      = some sessW
    ∧ stepTranscript (stepState (runTrace trC10) (Event.updateLanguageSettings "B" dataC10)) "A"
        "bonjour" true translateW
        = handleTranscript sessW "bonjour" true translateW
    ∧ mget (stepState (runTrace trC10) (Event.answerCall "B" "alice")).activeSpeechStreams "A"
      = some sessW
    ∧ stepTranscript (stepState (runTrace trC10) (Event.answerCall "B" "alice")) "A"
        "bonjour" true translateW
        = handleTranscript sessW "bonjour" true translateW :=
  C10_closure_capture (runTrace trC10) "A" "B" dataC10 sessW "B" "alice" "bonjour" true
    translateW (by decide) (by decide)

/-- Counterexample to C3 as stated: after a language-change teardown (which
does not cancel the renewal timer) and a fresh chunk, socket `A` has two
pending renewal timers in a reachable state. -/
theorem C3_counterexample : ¬ claimC3Prop := by
  intro h
  exact absurd (h trC3 "A") (by decide)

/-- Claim C3 (amended): the live-stream map holds at most one session per
connection at every reachable state, and the `disconnect`/`disconnectCall`
reactions cancel every pending renewal timer of the connection; the
provider-error and language-change teardown paths leave the timer pending, so
a stale timer can later fire against a newer session. -/
theorem C3_amended_thm (tr : List Event) (c : String) :
    countKey (runTrace tr).activeSpeechStreams c ≤ 1
    ∧ countPending (stepState (runTrace tr) (Event.disconnectCall c)).timers c = 0
    ∧ countPending (stepState (runTrace tr) (Event.disconnect c)).timers c = 0 := by
  refine ⟨sessBound_run tr c, ?_, ?_⟩
  · show countPending (clearSocketTimers (handleDisconnect (runTrace tr) c).1.timers c) c = 0
    rw [handleDisconnect_timers]
    exact countPending_clear _ _
  · show countPending (clearSocketTimers (handleDisconnect (runTrace tr) c).1.timers c) c = 0
    rw [handleDisconnect_timers]
    exact countPending_clear _ _

/-- Counterexample to C4 as stated: a successful registration on a fresh
server emits no broadcast at all — there is no online-users broadcast. -/
theorem C4_counterexample : ¬ claimC4Prop := by
  intro h
  exact absurd (h initState "A" "alice" (by decide)) (by decide)

theorem noBroadcast_disconnect (st : ServerState) (c : String) :
    noBroadcastB (handleDisconnect st c).2 = true := by
  rcases hU : mget st.socketIdToUsername c with _ | username
  · simp [handleDisconnect, hU, noBroadcastB]
  · by_cases hue : username = ""
    · simp [handleDisconnect, hU, hue, noBroadcastB]
    · simp only [handleDisconnect, hU, if_neg hue]
      unfold peerNotify
      repeat' split
      all_goals simp [noBroadcastB]

/-- Claim C4 (amended): a registration emits exactly one targeted
registration-result event to the registering socket, and neither
registration nor the disconnect reactions ever emit a broadcast — in
particular no online-users list is broadcast. -/
theorem C4_amended_thm (st : ServerState) (c u : String) :
    stepEmits st (Event.registerUsername c u) =
      (if mhas st.usernameToSocketId u then
        [⟨EmitTarget.socket c, Payload.registrationFailed u⟩]
       else [⟨EmitTarget.socket c, Payload.registrationSuccess u⟩])
    ∧ noBroadcastB (stepEmits st (Event.registerUsername c u)) = true
    ∧ noBroadcastB (stepEmits st (Event.disconnectCall c)) = true
    ∧ noBroadcastB (stepEmits st (Event.disconnect c)) = true := by
  refine ⟨?_, ?_, ?_, ?_⟩
  · cases hb : mhas st.usernameToSocketId u <;>
      simp [stepEmits, step, stepRegister, hb]
  · cases hb : mhas st.usernameToSocketId u <;>
      simp [stepEmits, step, stepRegister, noBroadcastB, hb]
  · show noBroadcastB (handleDisconnect st c).2 = true
    exact noBroadcast_disconnect st c
  · show noBroadcastB (handleDisconnect st c).2 = true
    exact noBroadcast_disconnect st c

/-- Claim C5: the code reads `currentLangs.source`, a key the stored records
never contain, so `settingsChanged` is true even for an update structurally
identical to the stored record, and the active session is torn down — the
code contradicts the intended structural comparison. -/
theorem C5_source_key_bug :
    (objGet defaultLangs "sourceLanguage" = objGet sameData "sourceLanguage"
      ∧ objGet defaultLangs "targetLanguage" = objGet sameData "targetLanguage"
      ∧ objGet defaultLangs "sttSourceLanguages" = objGet sameData "sttSourceLanguages")
    ∧ objGet defaultLangs "source" = JsVal.undef
    ∧ settingsChanged defaultLangs sameData = true
    ∧ mget (runTrace trC5).userLanguages "A" = some defaultLangs
    ∧ mhas (runTrace trC5).activeSpeechStreams "A" = true
    ∧ mget (runTrace (trC5 ++ [Event.updateLanguageSettings "A" sameData])).activeSpeechStreams "A"
        = none := by
  decide

/-- Counterexample to C6 as stated: in a trace with no call request at all,
`bob`'s orphaned answer naming the online `alice` still records the
association on both sides. -/
theorem C6_counterexample : ¬ claimC6Prop := by
  intro h
  exact absurd (h trC6 (by decide)) (by decide)

/-- Claim C6 (amended): an answer is ignored exactly when the answering
socket has no truthy username or the declared target name is not online;
whenever the answerer is registered and the target online — outstanding call
request or not — the association is recorded for both sides and
`callAccepted` is emitted to the target. -/
theorem C6_amended_answer (st : ServerState) (c toName u cid : String)
    (st2 : ServerState) (c2 t2 : String) (st3 : ServerState) (c3 t3 u3 : String)
    (hc : mget st.socketIdToUsername c = some u) (hune : u ≠ "")
    (ht : mget st.usernameToSocketId toName = some cid)
    (h2 : mget st2.socketIdToUsername c2 = none)
    (h3a : mget st3.socketIdToUsername c3 = some u3) (h3ne : u3 ≠ "")
    (h3b : mget st3.usernameToSocketId t3 = none) :
    step st (Event.answerCall c toName) =
      ({st with activeCalls := mset (mset st.activeCalls cid u) c toName},
       [⟨EmitTarget.socket cid, Payload.callAccepted u⟩])
    ∧ step st2 (Event.answerCall c2 t2) = (st2, [])
    ∧ step st3 (Event.answerCall c3 t3) = (st3, []) := by
  refine ⟨?_, ?_, ?_⟩
  · simp [step, stepAnswer, hc, hune, ht]
  · simp [step, stepAnswer, h2]
  · simp [step, stepAnswer, h3a, h3ne, h3b]

/-- Witness for C6 (amended): an orphaned but well-addressed answer records
the pairing; an unregistered answerer and an offline target are ignored. -/
theorem C6_witness :
    step (runTrace trC6w) (Event.answerCall "B" "alice") =
      ({runTrace trC6w with
          activeCalls := mset (mset (runTrace trC6w).activeCalls "A" "bob") "B" "alice"},
       [⟨EmitTarget.socket "A", Payload.callAccepted "bob"⟩])
    ∧ step initState (Event.answerCall "X" "y") = (initState, [])
    ∧ step (runTrace trC6w) (Event.answerCall "B" "zoe") = (runTrace trC6w, []) :=
  C6_amended_answer (runTrace trC6w) "B" "alice" "bob" "A" initState "X" "y"
    (runTrace trC6w) "B" "zoe" "bob"
    (by decide) (by decide) (by decide) (by decide) (by decide) (by decide) (by decide)

/-- Claim C7: the reverse directory never assigns one display name to two
sockets, and a registration for a name bound in the directory fails with a
targeted `registrationFailed` emission and leaves the entire state — all
bindings and language settings — unchanged. -/
theorem C7_registration_uniqueness (tr tr2 : List Event) (c1 c2 c c' u u2 : String)
    (h1 : mget (runTrace tr).socketIdToUsername c1 = some u)
    (h2 : mget (runTrace tr).socketIdToUsername c2 = some u)
    (h3 : mget (runTrace tr2).socketIdToUsername c' = some u2) :
    c1 = c2
    ∧ step (runTrace tr2) (Event.registerUsername c u2) =
        (runTrace tr2, [⟨EmitTarget.socket c, Payload.registrationFailed u2⟩]) := by
  constructor
  · have ha := dirInv_run tr c1 u h1
    have hb := dirInv_run tr c2 u h2
    rw [ha] at hb
    exact Option.some.inj hb
  · have hu : mhas (runTrace tr2).usernameToSocketId u2 = true := by
      unfold mhas
      rw [dirInv_run tr2 c' u2 h3]
      rfl
    simp [step, stepRegister, hu]

/-- Witness for C7: on the one-user state, a second socket registering
`alice` fails and changes nothing. -/
theorem C7_witness :
    "A" = "A"
    ∧ step (runTrace trReg) (Event.registerUsername "B" "alice") =
        (runTrace trReg, [⟨EmitTarget.socket "B", Payload.registrationFailed "alice"⟩]) :=
  C7_registration_uniqueness trReg trReg "A" "A" "B" "A" "alice" "alice"
    (by decide) (by decide) (by decide)

/-- Counterexample to C8 as stated: a never-registered socket that stored
language settings is untouched by the disconnect reaction — its language
record survives, so not all of its map entries are removed. -/
theorem C8_counterexample : ¬ claimC8Prop := by
  intro h
  exact absurd ((h trC8 "A").2.1) (by decide)

/-- Claim C8 (amended): disconnecting a registered, in-call connection whose
recorded peer name resolves removes its reverse-directory entry, the forward
entry of its current name, its language settings, its call association and
its live session, clears its pending renewal timers, deletes the association
held by the resolved peer socket and notifies only that socket; a second
disconnect reaction changes nothing and emits nothing.  (Stale forward
directory entries from superseded registrations, and entries of
never-registered sockets, are not removed.) -/
theorem C8_amended_thm (st : ServerState) (c u p pid : String)
    (hreg : mget st.socketIdToUsername c = some u) (hune : u ≠ "")
    (hp : mget st.activeCalls c = some p) (hpne : p ≠ "")
    (hpid : mget st.usernameToSocketId p = some pid) (hpidne : pid ≠ "") :
    mget (stepState st (Event.disconnectCall c)).socketIdToUsername c = none
    ∧ mget (stepState st (Event.disconnectCall c)).usernameToSocketId u = none
    ∧ mget (stepState st (Event.disconnectCall c)).userLanguages c = none
    ∧ mget (stepState st (Event.disconnectCall c)).activeCalls c = none
    ∧ mget (stepState st (Event.disconnectCall c)).activeSpeechStreams c = none
    ∧ countPending (stepState st (Event.disconnectCall c)).timers c = 0
    ∧ mget (stepState st (Event.disconnectCall c)).activeCalls pid = none
    ∧ stepEmits st (Event.disconnectCall c) = [⟨EmitTarget.socket pid, Payload.peerDisconnected⟩]
    ∧ step (stepState st (Event.disconnectCall c)) (Event.disconnectCall c)
        = (stepState st (Event.disconnectCall c), []) := by
  have hpn : peerNotify st c =
      ({st with activeCalls := mdel st.activeCalls pid},
       [⟨EmitTarget.socket pid, Payload.peerDisconnected⟩]) := by
    simp [peerNotify, hp, hpne, hpid, hpidne]
  have hhd : handleDisconnect st c =
      (purgeMaps {st with activeCalls := mdel st.activeCalls pid} c u,
       [⟨EmitTarget.socket pid, Payload.peerDisconnected⟩]) := by
    simp [handleDisconnect, hreg, hune, hpn]
  have hst : stepState st (Event.disconnectCall c) =
      {purgeMaps {st with activeCalls := mdel st.activeCalls pid} c u with
         timers := clearSocketTimers st.timers c} := by
    show (stepDisconnectCall st c).1 = _
    simp only [stepDisconnectCall, hhd]
    rfl
  have hemits : stepEmits st (Event.disconnectCall c)
      = [⟨EmitTarget.socket pid, Payload.peerDisconnected⟩] := by
    show (stepDisconnectCall st c).2 = _
    simp only [stepDisconnectCall, hhd]
  refine ⟨?_, ?_, ?_, ?_, ?_, ?_, ?_, hemits, ?_⟩
  · rw [hst]
    exact mget_mdel_self _ _
  · rw [hst]
    exact mget_mdel_self _ _
  · rw [hst]
    exact mget_mdel_self _ _
  · rw [hst]
    exact mget_mdel_self _ _
  · rw [hst]
    exact mget_mdel_self _ _
  · rw [hst]
    exact countPending_clear _ _
  · rw [hst]
    by_cases hpc : pid = c
    · subst hpc
      exact mget_mdel_self _ _
    · show mget (mdel (mdel st.activeCalls pid) c) pid = none
      rw [mget_mdel_ne _ _ _ hpc]
      exact mget_mdel_self _ _
  · rw [hst]
    have hz : mget (purgeMaps {st with activeCalls := mdel st.activeCalls pid} c u).socketIdToUsername c
        = none := mget_mdel_self _ _
    simp [step, stepDisconnectCall, handleDisconnect, hz, clearSocketTimers_idem]

/-- Witness for C8 (amended): the paired two-user state, disconnecting `A`. -/
theorem C8_witness :
    mget (stepState (runTrace trC8w) (Event.disconnectCall "A")).socketIdToUsername "A" = none
    ∧ mget (stepState (runTrace trC8w) (Event.disconnectCall "A")).usernameToSocketId "alice" = none
    ∧ mget (stepState (runTrace trC8w) (Event.disconnectCall "A")).userLanguages "A" = none
    ∧ mget (stepState (runTrace trC8w) (Event.disconnectCall "A")).activeCalls "A" = none
    ∧ mget (stepState (runTrace trC8w) (Event.disconnectCall "A")).activeSpeechStreams "A" = none
    ∧ countPending (stepState (runTrace trC8w) (Event.disconnectCall "A")).timers "A" = 0
    ∧ mget (stepState (runTrace trC8w) (Event.disconnectCall "A")).activeCalls "B" = none
    ∧ stepEmits (runTrace trC8w) (Event.disconnectCall "A")
        = [⟨EmitTarget.socket "B", Payload.peerDisconnected⟩]
    ∧ step (stepState (runTrace trC8w) (Event.disconnectCall "A")) (Event.disconnectCall "A")
        = (stepState (runTrace trC8w) (Event.disconnectCall "A"), []) :=
  C8_amended_thm (runTrace trC8w) "A" "alice" "bob" "B"
    (by decide) (by decide) (by decide) (by decide) (by decide) (by decide)

end VTS
